import Mathlib

/-!
Verification of the metriccost observability inventory engine.

This file gives a shallow embedding, in Lean 4, of the core operations of the
repository: the Prometheus client (request retry, scalar parsing, label
aggregation, config discovery), the snapshot collector, and the agentic
analyzer (analysis lifecycle and the bounded tool-using loop).  Outbound HTTP
and database effects are represented by explicit oracles and explicit state
passing; each definition mirrors the corresponding Go function.
-/

namespace MetricCost

/-! ### Cancellation context

Go `context.Context` cancellation, modelled by the absolute time (in abstract
steps or seconds, depending on the consumer) at which the context becomes
cancelled.  Cancellation is monotone: once cancelled, a context stays
cancelled. -/

deriving instance DecidableEq for Except

structure Ctx where
  cancelAt : Option Nat
deriving DecidableEq, Repr

def Ctx.cancelled (ctx : Ctx) (t : Nat) : Bool :=
  match ctx.cancelAt with
  | none => false
  | some c => decide (c ≤ t)

/-! ### Client: single request and retry
(`doSingleRequest`, `doRequestWithRetry`, `doRequest` in the Go client)

A single HTTP exchange is an oracle value: either a transport error or an HTTP
response `(status code, body)`.  `doSingleRequest` fails on transport errors
and on any non-2xx status, as in the Go code. -/

inductive ReqError where
  | httpStatus (code : Nat) (body : String)
  | transport (msg : String)
deriving DecidableEq, Repr

def doSingleRequest (resp : Except String (Nat × String)) : Except ReqError String :=
  match resp with
  | .error msg => .error (.transport msg)
  | .ok (code, body) =>
    if 200 ≤ code ∧ code < 300 then .ok body
    else .error (.httpStatus code body)

inductive RetryResult where
  | ok (body : String)
  | cancelled
  | exhausted (attempts : Nat) (lastErr : Option ReqError)
deriving DecidableEq, Repr

/-- Observable trace of a retried request: how many single requests were made
and which backoff waits (in seconds, in order) were performed. -/
structure RetryTrace where
  attempts : Nat
  waits : List Nat
deriving DecidableEq, Repr

/-- Backoff before attempt `attempt` (`attempt ≥ 1`): `1 << (attempt-1)` seconds. -/
def backoffSeconds (attempt : Nat) : Nat := 2 ^ (attempt - 1)

/-- The `select` over `ctx.Done()` and `time.After(backoff)`: the wait is
interrupted when the context is cancelled strictly before the timer fires. -/
def Ctx.interruptsWait (ctx : Ctx) (t w : Nat) : Bool :=
  match ctx.cancelAt with
  | none => false
  | some c => decide (c < t + w)

/-- The retry loop of `doRequestWithRetry`, with `fuel = maxRetries - attempt`.
`net i` is the HTTP exchange outcome of the `i`-th single request; `t` is the
elapsed time in seconds; `waits` accumulates performed backoffs in reverse. -/
def retryGo (ctx : Ctx) (net : Nat → Except String (Nat × String)) :
    Nat → Nat → Nat → List Nat → Option ReqError → RetryTrace × RetryResult
  | 0, attempt, _t, waits, lastErr =>
    (⟨attempt, waits.reverse⟩, .exhausted attempt lastErr)
  | fuel + 1, attempt, t, waits, _lastErr =>
    if 0 < attempt then
      let w := backoffSeconds attempt
      if ctx.interruptsWait t w then
        (⟨attempt, waits.reverse⟩, .cancelled)
      else
        match doSingleRequest (net attempt) with
        | .ok body => (⟨attempt + 1, (w :: waits).reverse⟩, .ok body)
        | .error e => retryGo ctx net fuel (attempt + 1) (t + w) (w :: waits) (some e)
    else
      match doSingleRequest (net attempt) with
      | .ok body => (⟨attempt + 1, waits.reverse⟩, .ok body)
      | .error e => retryGo ctx net fuel (attempt + 1) t waits (some e)

def doRequestWithRetry (ctx : Ctx) (net : Nat → Except String (Nat × String))
    (maxRetries : Nat) : RetryTrace × RetryResult :=
  retryGo ctx net maxRetries 0 0 [] none

/-- `doRequest` always retries with `maxRetries = 3`. -/
def doRequest (ctx : Ctx) (net : Nat → Except String (Nat × String)) :
    RetryTrace × RetryResult :=
  doRequestWithRetry ctx net 3

/-! ### Client: defensive numeric scalar parsing (`GetMetricCardinality`) -/

/-- A JSON value in the `value` position of a Prometheus query result:
a number with integer value, a number with a fractional part, or a string. -/
inductive JVal where
  | jint (n : Int)
  | jfrac (repr : String)
  | jstr (s : String)
deriving DecidableEq, Repr

/-- Digits-prefix value of a character list; `none` when there is no leading digit.
Mirrors what `fmt.Sscanf(s, "%d", ...)` consumes after sign handling. -/
def scanDigits (cs : List Char) : Option Nat :=
  let ds := cs.takeWhile Char.isDigit
  if ds.isEmpty then none
  else some (ds.foldl (fun a c => a * 10 + (c.toNat - 48)) 0)

/-- `fmt.Sscanf(s, "%d", &count)` with the error ignored: skip leading
whitespace, read an optional sign and a run of digits; `count` stays `0` when
nothing was scanned. -/
def scanLeadingInt (s : String) : Int :=
  let cs := s.toList.dropWhile (fun c => c = ' ' ∨ c = '\t' ∨ c = '\n')
  match cs with
  | '-' :: rest =>
    (match scanDigits rest with
     | some n => -(n : Int)
     | none => 0)
  | '+' :: rest =>
    (match scanDigits rest with
     | some n => (n : Int)
     | none => 0)
  | _ =>
    (match scanDigits cs with
     | some n => (n : Int)
     | none => 0)

/-- Parsing of `queryResult.Result[0].Value[1]`: `json.Unmarshal` into `int`
first (succeeds only on an integral JSON number), then fall back to
unmarshalling as a string scanned with `Sscanf "%d"`; a fractional number
fails both unmarshals. -/
def parseCount (v : JVal) : Except String Int :=
  match v with
  | .jint n => .ok n
  | .jstr s => .ok (scanLeadingInt s)
  | .jfrac _ => .error "failed to parse count"

structure QueryResult where
  value : List JVal
deriving DecidableEq, Repr

structure QueryResponse where
  result : List QueryResult
deriving DecidableEq, Repr

/-- The Prometheus response envelope `{status, data, error}` (data carried
separately, typed per endpoint). -/
structure ApiEnvelope where
  status : String
  errText : String
deriving DecidableEq, Repr

/-- Body of `GetMetricCardinality` after the HTTP exchange: envelope check,
empty-result and short-value guards, then defensive value parsing. -/
def GetMetricCardinality (env : ApiEnvelope) (q : QueryResponse) : Except String Int :=
  if env.status ≠ "success" then
    .error ("prometheus returned error: " ++ env.errText)
  else
    match q.result with
    | [] => .ok 0
    | r :: _ =>
      if r.value.length < 2 then .ok 0
      else parseCount (r.value.getD 1 (.jstr ""))

/-! ### Client: `GetConfig` -/

structure PrometheusConfig where
  scrapeIntervalSeconds : Nat
deriving DecidableEq, Repr

/-- `GetConfig`: on fetch failure return the default, on parse failure return
the default, and after a successful parse ... also return the default. -/
def GetConfig (fetch : Except ReqError String)
    (decode : String → Except String ApiEnvelope) : Except String PrometheusConfig :=
  match fetch with
  | .error _ => .ok ⟨15⟩
  | .ok body =>
    match decode body with
    | .error _ => .ok ⟨15⟩
    | .ok _ => .ok ⟨15⟩

/-! ### Client: `GetLabelsForMetric`

The series endpoint returns, for the selector
`metricName{serviceLabel="serviceName"}`, a list of label sets; each label set
is a list of `(label, value)` pairs (a Go `map[string]string`, determinized as
a list).  `GetLabelsForMetric` aggregates distinct values per label, skipping
`__name__` and the service label, caps sample values at `sampleLimit`, sorts
them, and returns the labels sorted by unique-value count descending. -/

abbrev LabelSet := List (String × String)

/-- The exclusion test in the aggregation loop:
`labelName == "__name__" || labelName == serviceLabel`. -/
def excludedLabel (serviceLabel k : String) : Bool :=
  k = "__name__" ∨ k = serviceLabel

/-- Membership insertion into a distinct-value list: the embedding of
`labelValues[labelName][value] = struct{}{}` on the value set. -/
def insertValue (vs : List String) (v : String) : List String :=
  if v ∈ vs then vs else vs ++ [v]

/-- Insertion into the `labelValues` map, determinized as an association list
in first-insertion order. -/
def insertLabelValue : List (String × List String) → String → String →
    List (String × List String)
  | [], k, v => [(k, [v])]
  | (k', vs) :: rest, k, v =>
    if k' = k then (k', insertValue vs v) :: rest
    else (k', vs) :: insertLabelValue rest k v

/-- One step of the aggregation loop over a `(label, value)` pair. -/
def collectStep (serviceLabel : String) (m : List (String × List String))
    (p : String × String) : List (String × List String) :=
  if excludedLabel serviceLabel p.1 then m else insertLabelValue m p.1 p.2

/-- The double loop `for _, s := range series { for label, value := range s }`
building `labelValues`. -/
def collectLabelValues (serviceLabel : String) (series : List LabelSet) :
    List (String × List String) :=
  series.foldl (fun m s => s.foldl (collectStep serviceLabel) m) []

/-- The sample-extraction loop: append a value, then break once
`len(samples) >= sampleLimit`.  (Note the check runs after the append.) -/
def takeSamples : List String → Int → List String
  | [], _ => []
  | v :: rest, limit =>
    if (1 : Int) ≥ limit then [v] else v :: takeSamples rest (limit - 1)

structure LabelInfo where
  name : String
  uniqueValues : Nat
  sampleValues : List String
deriving DecidableEq, Repr

/-- `GetLabelsForMetric` after the series request: aggregate, sample, sort
samples with `sort.Strings`, and sort labels by `UniqueValues` descending. -/
def GetLabelsForMetric (serviceLabel : String) (series : List LabelSet)
    (sampleLimit : Int) : List LabelInfo :=
  let lv := collectLabelValues serviceLabel series
  let labels := lv.map (fun kv =>
    { name := kv.1
      uniqueValues := kv.2.length
      sampleValues := (takeSamples kv.2 sampleLimit).mergeSort })
  labels.mergeSort (fun a b => decide (b.uniqueValues ≤ a.uniqueValues))

/-- Lookup in the `labelValues` association list (empty list when absent). -/
def findValues : List (String × List String) → String → List String
  | [], _ => []
  | (k', vs) :: rest, k => if k' = k then vs else findValues rest k

/-- The values paired with label `k` in a flat pair list, excluded labels
skipped. -/
def valuesFor (serviceLabel : String) (ps : List (String × String))
    (k : String) : List String :=
  ps.filterMap (fun p =>
    if p.1 = k ∧ excludedLabel serviceLabel p.1 = false then some p.2 else none)

/-- Specification view for the unique-value counts: the values observed for
label `k` across all series, excluding `__name__` and the service label. -/
def labelOccurrences (serviceLabel : String) (series : List LabelSet)
    (k : String) : List String :=
  valuesFor serviceLabel series.flatten k

/-! ### Analyzer: analysis lifecycle (`StartAnalysis`)

The snapshot and analysis repositories are modelled as in-memory tables.
Modelled from the spec: the repository implementations are not part of the
sources (only `storage.SnapshotsRepo` / `storage.AnalysisRepo` interfaces
are), so `GetByID` is a presence lookup, `GetByPair` returns the stored
analysis for the pair, and `Create` inserts a `Pending` analysis row, per
§3/§4.4 of the specification. -/

inductive AnalysisStatus where
  | pending
  | running
  | completed
  | failed
deriving DecidableEq, Repr

structure ToolCall where
  name : String
  args : String
  result : String
deriving DecidableEq, Repr

structure AnalysisRow where
  id : Nat
  currentId : Nat
  previousId : Nat
  status : AnalysisStatus
  result : String
  errorMsg : String
  toolCalls : List ToolCall
  completedAt : Option Nat
deriving DecidableEq, Repr

structure AnalyzerState where
  snapshotIds : List Nat
  analyses : List AnalysisRow
  running : Bool
  nextAnalysisId : Nat
deriving DecidableEq, Repr

/-- `analysisRepo.GetByPair`. -/
def getByPair (st : AnalyzerState) (c p : Nat) : Option AnalysisRow :=
  st.analyses.find? (fun r => r.currentId == c && r.previousId == p)

inductive StartError where
  | notFoundCurrent (id : Nat)
  | notFoundPrevious (id : Nat)
  | alreadyRunning
  | createFailed
deriving DecidableEq, Repr

/-- Result of `StartAnalysis`: the repository/guard state afterwards, the
returned analysis or error, and whether a background job was launched. -/
structure StartOutcome where
  state : AnalyzerState
  result : Except StartError AnalysisRow
  launched : Bool
deriving Repr

/-- The tail of `StartAnalysis` past the existing-completed check: the
single-flight guard, the `Pending` row insertion, and the background-job
launch.  `createFails` injects a repository failure on `Create`. -/
def startAnalysisProceed (st : AnalyzerState) (currentID previousID : Nat)
    (createFails : Bool) : StartOutcome :=
  if st.running then
    ⟨st, .error .alreadyRunning, false⟩
  else
    let st1 : AnalyzerState := { st with running := true }
    if createFails then
      ⟨{ st1 with running := false }, .error .createFailed, false⟩
    else
      let row : AnalysisRow :=
        ⟨st.nextAnalysisId, currentID, previousID, .pending, "", "", [], none⟩
      ⟨{ st1 with analyses := st1.analyses ++ [row],
                  nextAnalysisId := st1.nextAnalysisId + 1 },
       .ok { row with status := .running }, true⟩

/-- `Analyzer.StartAnalysis`: resolve both snapshots (fail fast), return an
existing `Completed` analysis for the pair, and otherwise proceed to the
guard/create/launch tail. -/
def StartAnalysis (st : AnalyzerState) (currentID previousID : Nat)
    (createFails : Bool) : StartOutcome :=
  if currentID ∉ st.snapshotIds then
    ⟨st, .error (.notFoundCurrent currentID), false⟩
  else if previousID ∉ st.snapshotIds then
    ⟨st, .error (.notFoundPrevious previousID), false⟩
  else
    match getByPair st currentID previousID with
    | some ex =>
      if ex.status = .completed then ⟨st, .ok ex, false⟩
      else startAnalysisProceed st currentID previousID createFails
    | none => startAnalysisProceed st currentID previousID createFails

/-! ### Analyzer: the bounded agentic loop (`runAnalysis` in prompt.go)

LLM responses are oracle values: `stream i` is the outcome of the `i`-th
`SendMessage` (the initial prompt for `i = 0`, the `i`-th function response
otherwise).  A `Response` with `parts = none` models a response with no
candidates or no content. -/

structure FunctionCall where
  name : String
  args : String
deriving DecidableEq, Repr

structure RespPart where
  text : String
  thought : Bool
  functionCall : Option FunctionCall
deriving DecidableEq, Repr

structure Response where
  parts : Option (List RespPart)
deriving DecidableEq, Repr

/-- The scan for the first part carrying a function call. -/
def firstFunctionCall (r : Response) : Option FunctionCall :=
  match r.parts with
  | none => none
  | some ps => (ps.find? (fun p => p.functionCall.isSome)).bind (·.functionCall)

/-- Concatenation of the non-thinking text parts
(`if part.Text != "" && !part.Thought`). -/
def nonThoughtText (r : Response) : String :=
  match r.parts with
  | none => ""
  | some ps =>
    ps.foldl (fun acc p => if p.text ≠ "" ∧ p.thought = false then acc ++ p.text else acc) ""

def maxAgenticIterations : Nat := 20

/-- `toolExecutor.Execute` with the error fed back as a result map
(`map[string]any{"error": err.Error()}`). -/
def toolResult (exec : String → String → Except String String)
    (fc : FunctionCall) : String :=
  match exec fc.name fc.args with
  | .ok r => r
  | .error msg => "error: " ++ msg

def mkToolCall (exec : String → String → Except String String)
    (fc : FunctionCall) : ToolCall :=
  ⟨fc.name, fc.args, toolResult exec fc⟩

/-- Final-result extraction and completion (`finalText` handling plus the
`Completed` update at the end of `runAnalysis`). -/
def finishCompleted (a : AnalysisRow) (r : Response) (now : Nat) : AnalysisRow :=
  let t := nonThoughtText r
  { a with status := .completed
           result := if t = "" then "No analysis generated." else t
           completedAt := some now }

/-- `completeAnalysisWithError`. -/
def failAnalysis (a : AnalysisRow) (msg : String) (now : Nat) : AnalysisRow :=
  { a with status := .failed, errorMsg := msg, completedAt := some now }

/-- The agentic loop of `runAnalysis`: at most `maxAgenticIterations`
iterations; an empty response is fatal, a response with no function call
breaks, otherwise the tool is executed, the call recorded, and the tool
result sent back.  `fuel` counts the remaining iterations, `i` indexes the
last message sent. -/
def agenticLoop (stream : Nat → Except String Response)
    (exec : String → String → Except String String) (now : Nat) :
    Nat → Nat → Response → AnalysisRow → AnalysisRow
  | 0, _i, resp, a => finishCompleted a resp now
  | fuel + 1, i, resp, a =>
    match resp.parts with
    | none => failAnalysis a "received an empty response from Gemini" now
    | some _ =>
      match firstFunctionCall resp with
      | none => finishCompleted a resp now
      | some fc =>
        let a' := { a with toolCalls := a.toolCalls ++ [mkToolCall exec fc] }
        match stream (i + 1) with
        | .error msg => failAnalysis a' msg now
        | .ok resp' => agenticLoop stream exec now fuel (i + 1) resp' a'

/-- `runAnalysis` after the prompt build and session creation: send the
initial prompt, run the loop, finalize. -/
def runAnalysis (stream : Nat → Except String Response)
    (exec : String → String → Except String String) (now : Nat)
    (a : AnalysisRow) : AnalysisRow :=
  match stream 0 with
  | .error msg => failAnalysis a msg now
  | .ok resp0 => agenticLoop stream exec now maxAgenticIterations 0 resp0 a

/-- Specification view of the tool invocations: the calls derived directly
from the response stream, in invocation order, capped at `fuel`. -/
def specCalls (stream : Nat → Except String Response)
    (exec : String → String → Except String String) :
    Nat → Nat → List ToolCall
  | 0, _ => []
  | fuel + 1, i =>
    match stream i with
    | .error _ => []
    | .ok r =>
      match firstFunctionCall r with
      | none => []
      | some fc => mkToolCall exec fc :: specCalls stream exec fuel (i + 1)

/-- Specification view of the response the loop finishes on: walk the stream
until a response with no function call (or until the iteration cap); `none`
when the run fails on a send error or an empty response. -/
def finalResponse (stream : Nat → Except String Response) :
    Nat → Nat → Option Response
  | 0, i =>
    match stream i with
    | .error _ => none
    | .ok r => some r
  | fuel + 1, i =>
    match stream i with
    | .error _ => none
    | .ok r =>
      match r.parts with
      | none => none
      | some _ =>
        match firstFunctionCall r with
        | none => some r
        | some _ => finalResponse stream fuel (i + 1)

/-! ### Collector (`Collect`, `collectService`, `collectMetric`)

The collector builds one snapshot tree per invocation.  The backend client
and the repositories are oracles bundled in a `CollectorWorld`; the database
is an explicit `Store`; an abstract clock advances by one on every outbound
or repository operation, and the cancellation context is compared against it.
Modelled from the spec: the repository implementations are not part of the
sources (only the `storage` interfaces are); their operations are modelled as
context-aware table inserts/updates — every suspension point composes with
cancellation (§5), and a cancelled context fails the call. -/

structure ServiceInfo where
  name : String
  seriesCount : Int
deriving DecidableEq, Repr

structure MetricInfo where
  name : String
  seriesCount : Int
deriving DecidableEq, Repr

structure SnapshotRow where
  id : Nat
  totalServices : Nat
  totalSeries : Int
  scanDurationMs : Nat
deriving DecidableEq, Repr

structure ServiceRow where
  id : Nat
  snapshotId : Nat
  serviceName : String
  totalSeries : Int
  metricCount : Nat
deriving DecidableEq, Repr

structure MetricRow where
  id : Nat
  serviceSnapshotId : Nat
  metricName : String
  seriesCount : Int
  labelCount : Nat
deriving DecidableEq, Repr

structure LabelRow where
  id : Nat
  metricSnapshotId : Nat
  labelName : String
  uniqueValuesCount : Nat
  sampleValues : List String
deriving DecidableEq, Repr

structure Store where
  snapshots : List SnapshotRow
  serviceRows : List ServiceRow
  metricRows : List MetricRow
  labelRows : List LabelRow
  nextId : Nat
deriving DecidableEq, Repr

def Store.empty : Store := ⟨[], [], [], [], 1⟩

/-- Collector run state: the database plus the abstract clock. -/
structure CState where
  store : Store
  clock : Nat
deriving DecidableEq, Repr

def CState.tick (st : CState) : CState := { st with clock := st.clock + 1 }

/-- The collector's environment: cancellation context, client responses, and
injected repository failures. -/
structure CollectorWorld where
  ctx : Ctx
  createSnapshotFails : Bool
  updateSnapshotFails : Bool
  discover : Except String (List ServiceInfo)
  metricsFor : String → Except String (List MetricInfo)
  labelsFor : String → String → Except String (List LabelInfo)
  serviceCreateFails : String → Bool
  metricCreateFails : String → String → Bool
  labelCreateFails : String → String → Bool

inductive CollectError where
  | cancelled
  | backend (msg : String)
  | repo (op : String)
deriving DecidableEq, Repr

/-- An outbound client call (`DiscoverServices`, `GetMetricsForService`,
`GetLabelsForMetric`): an HTTP request on a cancelled context fails with the
cancellation error; otherwise the oracle decides. -/
def clientCall {α : Type} (w : CollectorWorld) (st : CState)
    (res : Except String α) : CState × Except CollectError α :=
  if w.ctx.cancelled st.clock then (st.tick, .error .cancelled)
  else
    match res with
    | .error m => (st.tick, .error (.backend m))
    | .ok x => (st.tick, .ok x)

/-- `snapshots.Create`: insert a zero-valued snapshot row (two-phase write,
§3 Lifecycle) and return its id. -/
def repoCreateSnapshot (w : CollectorWorld) (st : CState) :
    CState × Except CollectError Nat :=
  if w.ctx.cancelled st.clock then (st.tick, .error .cancelled)
  else if w.createSnapshotFails then (st.tick, .error (.repo "create snapshot"))
  else
    let id := st.store.nextId
    ({ store := { st.store with
         snapshots := st.store.snapshots ++ [⟨id, 0, 0, 0⟩]
         nextId := id + 1 }
       clock := st.clock + 1 }, .ok id)

/-- `services.Create`. -/
def repoCreateService (w : CollectorWorld) (st : CState) (snapshotId : Nat)
    (svc : ServiceInfo) (metricCount : Nat) : CState × Except CollectError Nat :=
  if w.ctx.cancelled st.clock then (st.tick, .error .cancelled)
  else if w.serviceCreateFails svc.name then
    (st.tick, .error (.repo "create service"))
  else
    let id := st.store.nextId
    ({ store := { st.store with
         serviceRows := st.store.serviceRows ++
           [⟨id, snapshotId, svc.name, svc.seriesCount, metricCount⟩]
         nextId := id + 1 }
       clock := st.clock + 1 }, .ok id)

/-- `metrics.Create`. -/
def repoCreateMetric (w : CollectorWorld) (st : CState)
    (serviceSnapshotId : Nat) (serviceName : String) (m : MetricInfo)
    (labelCount : Nat) : CState × Except CollectError Nat :=
  if w.ctx.cancelled st.clock then (st.tick, .error .cancelled)
  else if w.metricCreateFails serviceName m.name then
    (st.tick, .error (.repo "create metric"))
  else
    let id := st.store.nextId
    ({ store := { st.store with
         metricRows := st.store.metricRows ++
           [⟨id, serviceSnapshotId, m.name, m.seriesCount, labelCount⟩]
         nextId := id + 1 }
       clock := st.clock + 1 }, .ok id)

/-- `labels.Create`. -/
def repoCreateLabel (w : CollectorWorld) (st : CState)
    (metricSnapshotId : Nat) (metricName : String) (l : LabelInfo) :
    CState × Except CollectError Nat :=
  if w.ctx.cancelled st.clock then (st.tick, .error .cancelled)
  else if w.labelCreateFails metricName l.name then
    (st.tick, .error (.repo "create label"))
  else
    let id := st.store.nextId
    ({ store := { st.store with
         labelRows := st.store.labelRows ++
           [⟨id, metricSnapshotId, l.name, l.uniqueValues, l.sampleValues⟩]
         nextId := id + 1 }
       clock := st.clock + 1 }, .ok id)

/-- `snapshots.Update`: write the final totals into the snapshot row. -/
def repoUpdateSnapshot (w : CollectorWorld) (st : CState) (sid : Nat)
    (totalServices : Nat) (totalSeries : Int) (dur : Nat) :
    CState × Except CollectError Unit :=
  if w.ctx.cancelled st.clock then (st.tick, .error .cancelled)
  else if w.updateSnapshotFails then (st.tick, .error (.repo "update snapshot"))
  else
    ({ store := { st.store with
         snapshots := st.store.snapshots.map (fun r =>
           if r.id = sid then
             { r with totalServices := totalServices, totalSeries := totalSeries,
                      scanDurationMs := dur }
           else r) }
       clock := st.clock + 1 }, .ok ())

/-- `collectMetric`: fetch labels (failure is non-fatal — proceed with an
empty label set), insert the metric row, then insert each label row
(failures logged and skipped). -/
def collectMetric (w : CollectorWorld) (st : CState) (serviceSnapshotId : Nat)
    (serviceName : String) (metric : MetricInfo) :
    CState × Except CollectError Unit :=
  let c1 := clientCall w st (w.labelsFor serviceName metric.name)
  let labelInfos := match c1.2 with
    | .error _ => []
    | .ok ls => ls
  match repoCreateMetric w c1.1 serviceSnapshotId serviceName metric
      labelInfos.length with
  | (st2, .error e) => (st2, .error e)
  | (st2, .ok mid) =>
    (labelInfos.foldl (fun s l => (repoCreateLabel w s mid metric.name l).1) st2,
     .ok ())

/-- The metric loop of `collectService`: cancellation check at the top of
each iteration; a failed `collectMetric` is logged and skipped. -/
def metricLoop (w : CollectorWorld) (sid : Nat) (sname : String) :
    List MetricInfo → CState → CState × Except CollectError Unit
  | [], st => (st, .ok ())
  | m :: ms, st =>
    if w.ctx.cancelled st.clock then (st, .error .cancelled)
    else metricLoop w sid sname ms (collectMetric w st sid sname m).1

/-- `collectService`: fetch the service's metrics, insert the service row
(with `TotalSeries` from discovery and `MetricCount` from the fetch), then
run the metric loop.  Returns the service row's `TotalSeries` on success. -/
def collectService (w : CollectorWorld) (st : CState) (snapshotId : Nat)
    (svc : ServiceInfo) : CState × Except CollectError Int :=
  match clientCall w st (w.metricsFor svc.name) with
  | (st1, .error e) => (st1, .error e)
  | (st1, .ok metricInfos) =>
    match repoCreateService w st1 snapshotId svc metricInfos.length with
    | (st2, .error e) => (st2, .error e)
    | (st2, .ok sid) =>
      match metricLoop w sid svc.name metricInfos st2 with
      | (st3, .error e) => (st3, .error e)
      | (st3, .ok _) => (st3, .ok svc.seriesCount)

/-- The service loop of `Collect`: cancellation check at the top of each
iteration; a failed `collectService` is logged and the loop continues;
successful services accumulate `totalSeries`. -/
def serviceLoop (w : CollectorWorld) (sid : Nat) :
    List ServiceInfo → CState → Int → CState × Except CollectError Int
  | [], st, acc => (st, .ok acc)
  | svc :: rest, st, acc =>
    if w.ctx.cancelled st.clock then (st, .error .cancelled)
    else
      match collectService w st sid svc with
      | (st1, .error _) => serviceLoop w sid rest st1 acc
      | (st1, .ok n) => serviceLoop w sid rest st1 (acc + n)

structure CollectResult where
  snapshotId : Nat
  totalServices : Nat
  totalSeries : Int
  durationMs : Nat
deriving DecidableEq, Repr

/-- `Collect`: create the zeroed snapshot, discover services, run the service
loop, then update the snapshot row with
`total_services = len(serviceInfos)`, the accumulated `total_series`, and the
scan duration (the final clock stands in for elapsed time). -/
def Collect (w : CollectorWorld) (st : CState) :
    CState × Except CollectError CollectResult :=
  match repoCreateSnapshot w st with
  | (st1, .error e) => (st1, .error e)
  | (st1, .ok sid) =>
    match clientCall w st1 w.discover with
    | (st2, .error e) => (st2, .error e)
    | (st2, .ok svcs) =>
      match serviceLoop w sid svcs st2 0 with
      | (st3, .error e) => (st3, .error e)
      | (st3, .ok totalSeries) =>
        match repoUpdateSnapshot w st3 sid svcs.length totalSeries st3.clock with
        | (st4, .error e) => (st4, .error e)
        | (st4, .ok _) => (st4, .ok ⟨sid, svcs.length, totalSeries, st3.clock⟩)

/-! ### Concrete example inputs used by witnesses -/

/-- A healthy world in which service `b`'s metrics fetch fails: two services
are discovered, one service row is persisted. -/
def exampleCollectorWorld : CollectorWorld :=
  { ctx := ⟨none⟩
    createSnapshotFails := false
    updateSnapshotFails := false
    discover := .ok [⟨"a", 100⟩, ⟨"b", 50⟩]
    metricsFor := fun name => if name = "b" then .error "boom" else .ok []
    labelsFor := fun _ _ => .ok []
    serviceCreateFails := fun _ => false
    metricCreateFails := fun _ _ => false
    labelCreateFails := fun _ _ => false }

def exampleWorldCreateFails : CollectorWorld :=
  { exampleCollectorWorld with createSnapshotFails := true }

def exampleWorldDiscoverFails : CollectorWorld :=
  { exampleCollectorWorld with discover := .error "connection refused" }

def exampleWorldCancelled : CollectorWorld :=
  { exampleCollectorWorld with ctx := ⟨some 2⟩ }

def exampleCompleted : AnalysisRow :=
  ⟨7, 1, 2, .completed, "done", "", [], some 100⟩

def exampleAnalyzerState : AnalyzerState :=
  ⟨[1, 2], [exampleCompleted], false, 8⟩

def exampleFinalAnswer : Response :=
  ⟨some [⟨"All good.", false, none⟩]⟩

/-- A model turn with zero function calls on iteration 1, then a closed
channel. -/
def exampleStream : Nat → Except String Response :=
  fun i => if i = 0 then .ok exampleFinalAnswer else .error "no more messages"

def exampleExec : String → String → Except String String :=
  fun _ _ => .ok "ok"

def exampleFreshAnalysis : AnalysisRow :=
  ⟨9, 2, 1, .pending, "", "", [], none⟩

end MetricCost

namespace MetricCost

/-! ## Helper lemmas -/

theorem Ctx.cancelled_mono {ctx : Ctx} {s t : Nat} (h : ctx.cancelled t = false)
    (hst : s ≤ t) : ctx.cancelled s = false := by
  unfold Ctx.cancelled at *
  cases hc : ctx.cancelAt with
  | none => rfl
  | some c =>
    rw [hc] at h
    simp only [decide_eq_false_iff_not] at h ⊢
    omega

/-! ## Helper lemmas: collector primitives -/

theorem clientCall_fst {α : Type} (w : CollectorWorld) (st : CState)
    (res : Except String α) : (clientCall w st res).1 = st.tick := by
  unfold clientCall
  split_ifs
  · rfl
  · cases res <;> rfl

theorem clientCall_ok_inv {α : Type} {w : CollectorWorld} {st : CState}
    {res : Except String α} {st' : CState} {x : α}
    (h : clientCall w st res = (st', .ok x)) :
    res = .ok x ∧ st' = st.tick ∧ w.ctx.cancelled st.clock = false := by
  unfold clientCall at h
  by_cases hc : w.ctx.cancelled st.clock
  · simp [hc] at h
  · rw [if_neg hc] at h
    cases res with
    | error m => simp at h
    | ok y =>
      simp only [Prod.mk.injEq] at h
      obtain ⟨h1, h2⟩ := h
      cases h2
      exact ⟨rfl, h1.symm ▸ rfl, by simpa using hc⟩

theorem repoCreateSnapshot_ok_inv {w : CollectorWorld} {st st' : CState} {sid : Nat}
    (h : repoCreateSnapshot w st = (st', .ok sid)) :
    w.ctx.cancelled st.clock = false ∧ w.createSnapshotFails = false ∧
    sid = st.store.nextId ∧
    st' = ⟨{ st.store with
              snapshots := st.store.snapshots ++ [⟨st.store.nextId, 0, 0, 0⟩]
              nextId := st.store.nextId + 1 }, st.clock + 1⟩ := by
  unfold repoCreateSnapshot at h
  by_cases hc : w.ctx.cancelled st.clock
  · simp [hc] at h
  · by_cases hf : w.createSnapshotFails
    · simp [hc, hf] at h
    · rw [if_neg hc, if_neg hf] at h
      simp only [Prod.mk.injEq] at h
      obtain ⟨h1, h2⟩ := h
      cases h2
      exact ⟨by simpa using hc, by simpa using hf, rfl, h1.symm⟩

theorem repoCreateService_error_inv {w : CollectorWorld} {st st' : CState}
    {sid : Nat} {svc : ServiceInfo} {mc : Nat} {e : CollectError}
    (h : repoCreateService w st sid svc mc = (st', .error e)) :
    st' = st.tick := by
  unfold repoCreateService at h
  by_cases hc : w.ctx.cancelled st.clock
  · rw [if_pos hc] at h
    exact (Prod.mk.injEq _ _ _ _ ▸ h).1.symm
  · by_cases hf : w.serviceCreateFails svc.name
    · rw [if_neg hc, if_pos hf] at h
      exact (Prod.mk.injEq _ _ _ _ ▸ h).1.symm
    · rw [if_neg hc, if_neg hf] at h
      simp at h

theorem repoCreateService_ok_inv {w : CollectorWorld} {st st' : CState}
    {sid : Nat} {svc : ServiceInfo} {mc : Nat} {rid : Nat}
    (h : repoCreateService w st sid svc mc = (st', .ok rid)) :
    rid = st.store.nextId ∧
    st' = ⟨{ st.store with
              serviceRows := st.store.serviceRows ++
                [⟨st.store.nextId, sid, svc.name, svc.seriesCount, mc⟩]
              nextId := st.store.nextId + 1 }, st.clock + 1⟩ := by
  unfold repoCreateService at h
  by_cases hc : w.ctx.cancelled st.clock
  · simp [hc] at h
  · by_cases hf : w.serviceCreateFails svc.name
    · simp [hc, hf] at h
    · rw [if_neg hc, if_neg hf] at h
      simp only [Prod.mk.injEq] at h
      obtain ⟨h1, h2⟩ := h
      cases h2
      exact ⟨rfl, h1.symm⟩

theorem repoUpdateSnapshot_ok_inv {w : CollectorWorld} {st st' : CState}
    {sid ts dur : Nat} {tot : Int} {u : Unit}
    (h : repoUpdateSnapshot w st sid ts tot dur = (st', .ok u)) :
    w.ctx.cancelled st.clock = false ∧ w.updateSnapshotFails = false ∧
    st' = ⟨{ st.store with
              snapshots := st.store.snapshots.map (fun r =>
                if r.id = sid then
                  { r with totalServices := ts, totalSeries := tot,
                           scanDurationMs := dur }
                else r) }, st.clock + 1⟩ := by
  unfold repoUpdateSnapshot at h
  by_cases hc : w.ctx.cancelled st.clock
  · simp [hc] at h
  · by_cases hf : w.updateSnapshotFails
    · simp [hc, hf] at h
    · rw [if_neg hc, if_neg hf] at h
      simp only [Prod.mk.injEq] at h
      exact ⟨by simpa using hc, by simpa using hf, h.1.symm⟩

theorem repoCreateMetric_fst (w : CollectorWorld) (st : CState)
    (ssid : Nat) (sname : String) (m : MetricInfo) (lc : Nat) :
    (repoCreateMetric w st ssid sname m lc).1.store.serviceRows =
      st.store.serviceRows ∧
    (repoCreateMetric w st ssid sname m lc).1.store.snapshots =
      st.store.snapshots ∧
    (repoCreateMetric w st ssid sname m lc).1.clock = st.clock + 1 := by
  unfold repoCreateMetric CState.tick
  split_ifs <;> simp

theorem repoCreateLabel_fst (w : CollectorWorld) (st : CState)
    (mid : Nat) (mname : String) (l : LabelInfo) :
    (repoCreateLabel w st mid mname l).1.store.serviceRows =
      st.store.serviceRows ∧
    (repoCreateLabel w st mid mname l).1.store.snapshots =
      st.store.snapshots ∧
    (repoCreateLabel w st mid mname l).1.clock = st.clock + 1 := by
  unfold repoCreateLabel CState.tick
  split_ifs <;> simp

theorem foldl_repoCreateLabel_fst (w : CollectorWorld) (mid : Nat)
    (mname : String) (ls : List LabelInfo) :
    ∀ st : CState,
      (ls.foldl (fun s l => (repoCreateLabel w s mid mname l).1) st).store.serviceRows =
        st.store.serviceRows ∧
      (ls.foldl (fun s l => (repoCreateLabel w s mid mname l).1) st).store.snapshots =
        st.store.snapshots ∧
      st.clock ≤ (ls.foldl (fun s l => (repoCreateLabel w s mid mname l).1) st).clock := by
  induction ls with
  | nil => intro st; exact ⟨rfl, rfl, le_refl _⟩
  | cons l ls ih =>
    intro st
    rw [List.foldl_cons]
    obtain ⟨hr, hs, hc⟩ := ih (repoCreateLabel w st mid mname l).1
    obtain ⟨hr', hs', hc'⟩ := repoCreateLabel_fst w st mid mname l
    exact ⟨hr.trans hr', hs.trans hs', le_trans (by omega) hc⟩

theorem collectMetric_fst (w : CollectorWorld) (st : CState)
    (ssid : Nat) (sname : String) (m : MetricInfo) :
    (collectMetric w st ssid sname m).1.store.serviceRows =
      st.store.serviceRows ∧
    (collectMetric w st ssid sname m).1.store.snapshots =
      st.store.snapshots ∧
    st.clock ≤ (collectMetric w st ssid sname m).1.clock := by
  unfold collectMetric
  have hcc := clientCall_fst w st (w.labelsFor sname m.name)
  dsimp only
  generalize (match (clientCall w st (w.labelsFor sname m.name)).2 with
    | Except.error _ => ([] : List LabelInfo)
    | Except.ok ls => ls) = labelInfos
  split
  case _ st2 e heq =>
    have h2 := congrArg Prod.fst heq
    obtain ⟨hr, hs, hc⟩ := repoCreateMetric_fst w
      (clientCall w st (w.labelsFor sname m.name)).1 ssid sname m labelInfos.length
    rw [h2, hcc] at hr hs hc
    refine ⟨by simpa [CState.tick] using hr, by simpa [CState.tick] using hs, ?_⟩
    show st.clock ≤ st2.clock
    simp [CState.tick] at hc
    omega
  case _ st2 mid heq =>
    have h2 := congrArg Prod.fst heq
    obtain ⟨hr, hs, hc⟩ := repoCreateMetric_fst w
      (clientCall w st (w.labelsFor sname m.name)).1 ssid sname m labelInfos.length
    rw [h2, hcc] at hr hs hc
    obtain ⟨hfr, hfs, hfc⟩ := foldl_repoCreateLabel_fst w mid m.name labelInfos st2
    refine ⟨hfr.trans (by simpa [CState.tick] using hr),
            hfs.trans (by simpa [CState.tick] using hs), ?_⟩
    show st.clock ≤ (labelInfos.foldl (fun s l => (repoCreateLabel w s mid m.name l).1) st2).clock
    simp [CState.tick] at hc
    omega

/-- Under a context that is still uncancelled at the loop's final clock, the
metric loop always succeeds (per-metric failures are skipped) and touches
neither the service rows nor the snapshot rows. -/
theorem metricLoop_spec (w : CollectorWorld) (sid : Nat) (sname : String) :
    ∀ (ms : List MetricInfo) (st : CState) (T : Nat),
      w.ctx.cancelled T = false →
      (metricLoop w sid sname ms st).1.clock ≤ T →
      (metricLoop w sid sname ms st).2 = .ok () ∧
      (metricLoop w sid sname ms st).1.store.serviceRows = st.store.serviceRows ∧
      (metricLoop w sid sname ms st).1.store.snapshots = st.store.snapshots ∧
      st.clock ≤ (metricLoop w sid sname ms st).1.clock := by
  intro ms
  induction ms with
  | nil => intro st T hT hclk; exact ⟨rfl, rfl, rfl, le_refl _⟩
  | cons m ms ih =>
    intro st T hT hclk
    by_cases hc : w.ctx.cancelled st.clock = true
    · exfalso
      have hres : metricLoop w sid sname (m :: ms) st = (st, .error .cancelled) := by
        simp [metricLoop, hc]
      rw [hres] at hclk
      have hfalse := Ctx.cancelled_mono hT hclk
      rw [hfalse] at hc
      cases hc
    · rw [Bool.not_eq_true] at hc
      have hres : metricLoop w sid sname (m :: ms) st =
          metricLoop w sid sname ms (collectMetric w st sid sname m).1 := by
        simp [metricLoop, hc]
      rw [hres] at hclk ⊢
      obtain ⟨h1, h2, h3, h4⟩ := ih (collectMetric w st sid sname m).1 T hT hclk
      obtain ⟨hm1, hm2, hm3⟩ := collectMetric_fst w st sid sname m
      exact ⟨h1, h2.trans hm1, h3.trans hm2, le_trans hm3 h4⟩

/-- Behaviour of `collectService` under a context still uncancelled at its
final clock: the snapshot table is untouched, and either it fails having
inserted no service row, or it succeeds returning the discovered
`seriesCount`, having inserted exactly one row carrying that count. -/
theorem collectService_spec (w : CollectorWorld) (st : CState) (sid : Nat)
    (svc : ServiceInfo) (T : Nat) (st' : CState) (r : Except CollectError Int)
    (heq : collectService w st sid svc = (st', r))
    (hT : w.ctx.cancelled T = false) (hclk : st'.clock ≤ T) :
    st'.store.snapshots = st.store.snapshots ∧
    st.clock ≤ st'.clock ∧
    ((∃ e, r = .error e ∧ st'.store.serviceRows = st.store.serviceRows) ∨
     (r = .ok svc.seriesCount ∧ ∃ rid mc,
        st'.store.serviceRows = st.store.serviceRows ++
          [⟨rid, sid, svc.name, svc.seriesCount, mc⟩])) := by
  unfold collectService at heq
  split at heq
  · rename_i st1 e hcc
    have h1 : st1 = st.tick := by
      have hfst := congrArg Prod.fst hcc
      rw [clientCall_fst] at hfst
      exact hfst.symm
    subst h1
    cases heq
    exact ⟨rfl, by simp [CState.tick], Or.inl ⟨e, rfl, rfl⟩⟩
  · rename_i st1 metricInfos hcc
    obtain ⟨-, h1, -⟩ := clientCall_ok_inv hcc
    subst h1
    split at heq
    · rename_i st2 e hsc
      cases heq
      have h2 := repoCreateService_error_inv hsc
      subst h2
      refine ⟨rfl, ?_, Or.inl ⟨e, rfl, rfl⟩⟩
      simp only [CState.tick]
      omega
    · rename_i st2 rid hsc
      obtain ⟨hrid, h2⟩ := repoCreateService_ok_inv hsc
      split at heq
      · rename_i st3 e hml
        cases heq
        exfalso
        obtain ⟨hok, -, -, -⟩ := metricLoop_spec w rid svc.name metricInfos st2 T hT
          (by rw [hml]; exact hclk)
        rw [hml] at hok
        cases hok
      · rename_i st3 u hml
        cases heq
        obtain ⟨-, hrows, hsnaps, hclk3⟩ :=
          metricLoop_spec w rid svc.name metricInfos st2 T hT
            (by rw [hml]; exact hclk)
        rw [hml] at hrows hsnaps hclk3
        subst h2
        refine ⟨hsnaps.trans (by simp [CState.tick]), ?_, Or.inr ⟨rfl, ?_⟩⟩
        · simp [CState.tick] at hclk3
          omega
        · exact ⟨st.tick.store.nextId, metricInfos.length,
            hrows.trans (by simp [CState.tick])⟩

/-- The service loop under a context still uncancelled at its final clock:
it succeeds (per-service failures are logged and skipped), appends only
service rows tagged with this snapshot id, and returns the accumulated sum of
the appended rows' series counts. -/
theorem serviceLoop_spec (w : CollectorWorld) (sid : Nat) :
    ∀ (svcs : List ServiceInfo) (st : CState) (acc : Int) (T : Nat)
      (st' : CState) (r : Except CollectError Int),
      serviceLoop w sid svcs st acc = (st', r) →
      w.ctx.cancelled T = false → st'.clock ≤ T →
      st.clock ≤ st'.clock ∧
      st'.store.snapshots = st.store.snapshots ∧
      ∃ L, st'.store.serviceRows = st.store.serviceRows ++ L ∧
        r = .ok (acc + (L.map ServiceRow.totalSeries).sum) ∧
        (∀ row ∈ L, row.snapshotId = sid) ∧
        L.length ≤ svcs.length := by
  intro svcs
  induction svcs with
  | nil =>
    intro st acc T st' r heq hT hclk
    unfold serviceLoop at heq
    cases heq
    exact ⟨le_refl _, rfl, [], by simp, by simp, by simp, by simp⟩
  | cons svc rest ih =>
    intro st acc T st' r heq hT hclk
    rw [serviceLoop] at heq
    by_cases hc : w.ctx.cancelled st.clock = true
    · rw [if_pos hc] at heq
      cases heq
      have hfalse := Ctx.cancelled_mono hT hclk
      rw [hfalse] at hc
      cases hc
    · rw [Bool.not_eq_true] at hc
      rw [if_neg (by simp [hc])] at heq
      split at heq
      · rename_i st1 e0 hcs
        obtain ⟨hclk1, hsnap, L, hrows, hr, hmem, hlen⟩ := ih st1 acc T st' r heq hT hclk
        obtain ⟨hs1, hc1, hdis⟩ := collectService_spec w st sid svc T st1 (.error e0)
          hcs hT (le_trans hclk1 hclk)
        rcases hdis with ⟨e, -, hrows1⟩ | ⟨hok, -⟩
        · exact ⟨le_trans hc1 hclk1, hsnap.trans hs1, L,
            by rw [hrows, hrows1], hr, hmem, by simp [List.length_cons]; omega⟩
        · cases hok
      · rename_i st1 n hcs
        obtain ⟨hclk1, hsnap, L, hrows, hr, hmem, hlen⟩ := ih st1 (acc + n) T st' r heq hT hclk
        obtain ⟨hs1, hc1, hdis⟩ := collectService_spec w st sid svc T st1 (.ok n)
          hcs hT (le_trans hclk1 hclk)
        rcases hdis with ⟨e, habs, -⟩ | ⟨hok, rid, mc, hrows1⟩
        · cases habs
        · have hn : n = svc.seriesCount := by
            cases hok
            rfl
          refine ⟨le_trans hc1 hclk1, hsnap.trans hs1,
            ⟨rid, sid, svc.name, svc.seriesCount, mc⟩ :: L, ?_, ?_, ?_, ?_⟩
          · rw [hrows, hrows1]
            simp
          · rw [hr, hn]
            congr 1
            simp
            ring
          · intro row hrow
            rcases List.mem_cons.mp hrow with hh | ht
            · rw [hh]
            · exact hmem row ht
          · simpa using Nat.succ_le_succ hlen

theorem findValues_insertLabelValue (m : List (String × List String))
    (k v : String) (k' : String) :
    findValues (insertLabelValue m k v) k' =
      if k' = k then insertValue (findValues m k) v else findValues m k' := by
  induction m with
  | nil =>
    by_cases h : k' = k
    · simp [insertLabelValue, findValues, insertValue, h]
    · simp [insertLabelValue, findValues, h, Ne.symm h]
  | cons hd tl ih =>
    obtain ⟨kh, vh⟩ := hd
    by_cases hk : kh = k
    · subst hk
      by_cases h : k' = kh
      · simp [insertLabelValue, findValues, h]
      · simp [insertLabelValue, findValues, h, Ne.symm h]
    · by_cases h : k' = kh
      · subst h
        simp [insertLabelValue, findValues, hk, Ne.symm hk]
      · simp [insertLabelValue, findValues, hk, h, Ne.symm h, ih]

theorem valuesFor_cons (serviceLabel : String) (p : String × String)
    (ps : List (String × String)) (k : String) :
    valuesFor serviceLabel (p :: ps) k =
      if p.1 = k ∧ excludedLabel serviceLabel p.1 = false
      then p.2 :: valuesFor serviceLabel ps k
      else valuesFor serviceLabel ps k := by
  by_cases h : p.1 = k ∧ excludedLabel serviceLabel p.1 = false
  · have hp : (if p.1 = k ∧ excludedLabel serviceLabel p.1 = false
        then some p.2 else none) = some p.2 := if_pos h
    simp only [valuesFor, List.filterMap_cons, hp, if_pos h]
  · have hp : (if p.1 = k ∧ excludedLabel serviceLabel p.1 = false
        then some p.2 else none) = none := if_neg h
    simp only [valuesFor, List.filterMap_cons, hp, if_neg h]

theorem foldl_collectStep_findValues (serviceLabel : String)
    (ps : List (String × String)) :
    ∀ (m : List (String × List String)) (k : String),
      findValues (ps.foldl (collectStep serviceLabel) m) k =
        (valuesFor serviceLabel ps k).foldl insertValue (findValues m k) := by
  induction ps with
  | nil => intro m k; rfl
  | cons p ps ih =>
    intro m k
    rw [List.foldl_cons, ih, valuesFor_cons]
    by_cases hex : excludedLabel serviceLabel p.1 = true
    · simp [collectStep, hex]
    · rw [Bool.not_eq_true] at hex
      by_cases hk : p.1 = k
      · subst hk
        simp [collectStep, hex, findValues_insertLabelValue]
      · simp [collectStep, hex, hk, findValues_insertLabelValue, Ne.symm hk]

theorem collectLabelValues_eq_foldl_flatten (serviceLabel : String)
    (series : List LabelSet) :
    collectLabelValues serviceLabel series =
      series.flatten.foldl (collectStep serviceLabel) [] := by
  rw [collectLabelValues, List.foldl_flatten]

theorem toFinset_insertValue (vs : List String) (v : String) :
    (insertValue vs v).toFinset = insert v vs.toFinset := by
  by_cases h : v ∈ vs
  · simp [insertValue, h, Finset.insert_eq_self.mpr (List.mem_toFinset.mpr h)]
  · simp [insertValue, h, Finset.union_comm, Finset.insert_eq]

theorem toFinset_foldl_insertValue (ws : List String) :
    ∀ vs : List String, (ws.foldl insertValue vs).toFinset = vs.toFinset ∪ ws.toFinset := by
  induction ws with
  | nil => intro vs; simp
  | cons w ws ih =>
    intro vs
    rw [List.foldl_cons, ih, toFinset_insertValue]
    simp [Finset.union_comm, Finset.union_left_comm]

theorem nodup_insertValue {vs : List String} (h : vs.Nodup) (v : String) :
    (insertValue vs v).Nodup := by
  by_cases hm : v ∈ vs
  · simpa [insertValue, hm] using h
  · simp [insertValue, hm, List.nodup_append, h]

theorem nodup_foldl_insertValue (ws : List String) :
    ∀ {vs : List String}, vs.Nodup → (ws.foldl insertValue vs).Nodup := by
  induction ws with
  | nil => intro vs h; exact h
  | cons w ws ih =>
    intro vs h
    rw [List.foldl_cons]
    exact ih (nodup_insertValue h w)

theorem keys_insertLabelValue (m : List (String × List String)) (k v : String) :
    (insertLabelValue m k v).map Prod.fst =
      if k ∈ m.map Prod.fst then m.map Prod.fst else m.map Prod.fst ++ [k] := by
  induction m with
  | nil => simp [insertLabelValue]
  | cons hd tl ih =>
    obtain ⟨kh, vh⟩ := hd
    by_cases hk : kh = k
    · subst hk
      simp [insertLabelValue]
    · by_cases hmem : k ∈ tl.map Prod.fst <;>
        simp [insertLabelValue, hk, Ne.symm hk, hmem, ih]

theorem keysNodup_insertLabelValue {m : List (String × List String)}
    (h : (m.map Prod.fst).Nodup) (k v : String) :
    ((insertLabelValue m k v).map Prod.fst).Nodup := by
  rw [keys_insertLabelValue]
  by_cases hmem : k ∈ m.map Prod.fst
  · simpa [hmem] using h
  · simp [hmem, List.nodup_append, h]

theorem keysNodup_foldl_collectStep (serviceLabel : String)
    (ps : List (String × String)) :
    ∀ {m : List (String × List String)}, (m.map Prod.fst).Nodup →
      (((ps.foldl (collectStep serviceLabel) m)).map Prod.fst).Nodup := by
  induction ps with
  | nil => intro m h; exact h
  | cons p ps ih =>
    intro m h
    rw [List.foldl_cons]
    refine ih ?_
    by_cases hex : excludedLabel serviceLabel p.1 = true
    · simpa [collectStep, hex] using h
    · rw [Bool.not_eq_true] at hex
      simpa [collectStep, hex] using keysNodup_insertLabelValue h p.1 p.2

theorem findValues_of_mem {m : List (String × List String)}
    (hnd : (m.map Prod.fst).Nodup) {k : String} {vs : List String}
    (h : (k, vs) ∈ m) : findValues m k = vs := by
  induction m with
  | nil => cases h
  | cons hd tl ih =>
    obtain ⟨kh, vh⟩ := hd
    rcases List.mem_cons.mp h with heq | htl
    · cases heq
      simp [findValues]
    · rw [List.map_cons, List.nodup_cons] at hnd
      have hk : kh ≠ k := by
        intro hkk
        subst hkk
        exact hnd.1 (List.mem_map.mpr ⟨(kh, vs), htl, rfl⟩)
      simp [findValues, hk, ih hnd.2 htl]

/-- The values list stored for any entry of `collectLabelValues` is the
deduplication of the occurrences of that label, so in particular it is
duplicate-free and its length is the number of distinct observed values. -/
theorem collectLabelValues_values (serviceLabel : String) (series : List LabelSet)
    {k : String} {vs : List String}
    (h : (k, vs) ∈ collectLabelValues serviceLabel series) :
    vs = (labelOccurrences serviceLabel series k).foldl insertValue [] := by
  have hnd : ((collectLabelValues serviceLabel series).map Prod.fst).Nodup := by
    rw [collectLabelValues_eq_foldl_flatten]
    exact keysNodup_foldl_collectStep serviceLabel series.flatten (by simp)
  have hfv := findValues_of_mem hnd h
  rw [collectLabelValues_eq_foldl_flatten] at hfv
  rw [foldl_collectStep_findValues] at hfv
  simpa [labelOccurrences, findValues] using hfv.symm

theorem takeSamples_length_le (vs : List String) :
    ∀ limit : Int, 1 ≤ limit → ((takeSamples vs limit).length : Int) ≤ limit := by
  induction vs with
  | nil => intro limit h; simpa [takeSamples] using le_trans zero_le_one h
  | cons v rest ih =>
    intro limit h
    by_cases hb : (1 : Int) ≥ limit
    · simp [takeSamples, hb]
      omega
    · have h2 : (2 : Int) ≤ limit := by omega
      have := ih (limit - 1) (by omega)
      simp [takeSamples, hb]
      omega

theorem takeSamples_sublist (vs : List String) :
    ∀ limit : Int, List.Sublist (takeSamples vs limit) vs := by
  induction vs with
  | nil => intro limit; simp [takeSamples]
  | cons v rest ih =>
    intro limit
    by_cases hb : (1 : Int) ≥ limit
    · simp only [takeSamples, if_pos hb]
      exact (List.nil_sublist rest).cons₂ v
    · simp only [takeSamples, if_neg hb]
      exact (ih (limit - 1)).cons₂ v

/-- Membership in the result of `GetLabelsForMetric`, unfolded to the
aggregation map entry it came from. -/
theorem mem_getLabelsForMetric {serviceLabel : String} {series : List LabelSet}
    {sampleLimit : Int} {info : LabelInfo}
    (h : info ∈ GetLabelsForMetric serviceLabel series sampleLimit) :
    ∃ kv ∈ collectLabelValues serviceLabel series,
      info = { name := kv.1, uniqueValues := kv.2.length,
               sampleValues := (takeSamples kv.2 sampleLimit).mergeSort } := by
  unfold GetLabelsForMetric at h
  rw [List.mem_mergeSort] at h
  obtain ⟨kv, hkv, heq⟩ := List.mem_map.mp h
  exact ⟨kv, hkv, heq.symm⟩

/-! ## Claim theorems: client -/

/-- Claim C2: the client makes up to 3 attempts on any transport or non-2xx
failure, waiting 0 s before the first attempt, 1 s before the second and 2 s
before the third; a backend that answers a cardinality query with a non-2xx
`status:"error"` envelope is surfaced as an error only after the 3 attempts
with 0 s, 1 s, 2 s backoff; a cancelled context short-circuits the retry loop
immediately (no backoff wait is performed) with the cancellation result. -/
theorem client_retry_policy (body msg : String)
    (net : Nat → Except String (Nat × String))
    (hnet : net 0 = Except.error msg) :
    doRequest ⟨none⟩ (fun _ => Except.ok (400, body)) =
      (⟨3, [1, 2]⟩, RetryResult.exhausted 3 (some (ReqError.httpStatus 400 body))) ∧
    doRequest ⟨some 0⟩ net = (⟨1, []⟩, RetryResult.cancelled) := by
  constructor
  · rfl
  · simp only [doRequest, doRequestWithRetry, retryGo, hnet]
    rfl

theorem client_retry_policy_witness :
    doRequest ⟨none⟩ (fun _ => Except.ok (400, "bad query")) =
      (⟨3, [1, 2]⟩, RetryResult.exhausted 3 (some (ReqError.httpStatus 400 "bad query"))) ∧
    doRequest ⟨some 0⟩ (fun _ => Except.error "context canceled") =
      (⟨1, []⟩, RetryResult.cancelled) :=
  client_retry_policy "bad query" "context canceled"
    (fun _ => Except.error "context canceled") rfl

/-- Claim C8: `GetMetricCardinality` parses the numeric scalar defensively:
an integral JSON number parses directly, and a JSON string falls back to a
leading-integer scan; in particular a `count(up)` response with
`value=["17.2","42"]` yields cardinality 42. -/
theorem cardinality_defensive_parse (n : Int) (s ts : String) :
    GetMetricCardinality ⟨"success", ""⟩ ⟨[⟨[JVal.jstr "17.2", JVal.jstr "42"]⟩]⟩ =
      Except.ok 42 ∧
    GetMetricCardinality ⟨"success", ""⟩ ⟨[⟨[JVal.jstr ts, JVal.jint n]⟩]⟩ =
      Except.ok n ∧
    GetMetricCardinality ⟨"success", ""⟩ ⟨[⟨[JVal.jstr ts, JVal.jstr s]⟩]⟩ =
      Except.ok (scanLeadingInt s) ∧
    scanLeadingInt "42" = 42 ∧ scanLeadingInt "17.2" = 17 := by
  refine ⟨by rfl, by rfl, by rfl, by rfl, by rfl⟩

/-- Claim C10: `GetConfig` never returns an error and always reports a scrape
interval of 15 seconds, whatever the fetch outcome and whatever the backend's
successfully decoded config says. -/
theorem getConfig_constant_interval (fetch : Except ReqError String)
    (decode : String → Except String ApiEnvelope) :
    GetConfig fetch decode = Except.ok ⟨15⟩ := by
  cases fetch with
  | error e => rfl
  | ok body =>
    cases h : decode body with
    | error e => simp [GetConfig, h]
    | ok env => simp [GetConfig, h]

/-- Claim C5 (amended): for a sample limit of at least 1, every `LabelInfo`
returned by `GetLabelsForMetric` has at most `sampleLimit` sample values, and
they are strictly sorted ascending (hence duplicate-free).  The original claim,
for every `sampleLimit`, fails at `sampleLimit = 0`, where one sample is kept:
the Go loop appends a value before checking the cap. -/
theorem sampleValues_bounded_sorted (serviceLabel : String) (series : List LabelSet)
    (sampleLimit : Int) (info : LabelInfo) (hlim : 1 ≤ sampleLimit)
    (h : info ∈ GetLabelsForMetric serviceLabel series sampleLimit) :
    ((info.sampleValues.length : Int) ≤ sampleLimit ∧
     info.sampleValues.Sorted (· < ·)) := by
  obtain ⟨kv, hkv, heq⟩ := mem_getLabelsForMetric h
  subst heq
  have hvals := collectLabelValues_values serviceLabel series hkv
  have hnd : kv.2.Nodup := by
    rw [hvals]
    exact nodup_foldl_insertValue _ List.nodup_nil
  constructor
  · simpa [List.length_mergeSort] using takeSamples_length_le kv.2 sampleLimit hlim
  · have hnds : (takeSamples kv.2 sampleLimit).Nodup :=
      (takeSamples_sublist kv.2 sampleLimit).nodup hnd
    have hsorted : ((takeSamples kv.2 sampleLimit).mergeSort).Sorted (· ≤ ·) :=
      List.sorted_mergeSort' (takeSamples kv.2 sampleLimit)
    have hndm : ((takeSamples kv.2 sampleLimit).mergeSort).Nodup :=
      ((List.mergeSort_perm (takeSamples kv.2 sampleLimit) _).nodup_iff).mpr hnds
    exact hsorted.lt_of_le hndm

theorem sampleValues_bounded_sorted_witness :
    (((({ name := "l", uniqueValues := 1, sampleValues := ["v"] } : LabelInfo).sampleValues.length : Int) ≤ 1) ∧
     ({ name := "l", uniqueValues := 1, sampleValues := ["v"] } : LabelInfo).sampleValues.Sorted (· < ·)) :=
  sampleValues_bounded_sorted "service" [[("l", "v")]] 1
    { name := "l", uniqueValues := 1, sampleValues := ["v"] }
    (by norm_num)
    (by simp [GetLabelsForMetric, collectLabelValues, collectStep, excludedLabel,
              insertLabelValue, takeSamples])

/-- Claim C5, counterexample to the original statement: with `sampleLimit = 0`
the returned label keeps one sample value, so `len(sample_values) ≤ sampleLimit`
fails. -/
theorem sampleValues_limit_zero_counterexample :
    ∃ info ∈ GetLabelsForMetric "service" [[("path", "x")]] 0,
      ¬ ((info.sampleValues.length : Int) ≤ 0) := by
  refine ⟨{ name := "path", uniqueValues := 1, sampleValues := ["x"] }, ?_, by norm_num⟩
  simp [GetLabelsForMetric, collectLabelValues, collectStep, excludedLabel,
        insertLabelValue, takeSamples]

/-- Claim C6: every label returned by `GetLabelsForMetric` reports as
`uniqueValues` the full number of distinct values observed for that label
across the series (excluding `__name__` and the service label), regardless of
the sample limit — in particular even when the distinct-value count exceeds
the limit and `sampleValues` was capped. -/
theorem uniqueValues_full_count (serviceLabel : String) (series : List LabelSet)
    (sampleLimit : Int) (info : LabelInfo)
    (h : info ∈ GetLabelsForMetric serviceLabel series sampleLimit) :
    info.uniqueValues = (labelOccurrences serviceLabel series info.name).toFinset.card := by
  obtain ⟨kv, hkv, heq⟩ := mem_getLabelsForMetric h
  subst heq
  have hvals := collectLabelValues_values serviceLabel series hkv
  have hnd : kv.2.Nodup := by
    rw [hvals]
    exact nodup_foldl_insertValue _ List.nodup_nil
  have hcard : kv.2.toFinset.card = kv.2.length := List.toFinset_card_of_nodup hnd
  have hts : kv.2.toFinset = (labelOccurrences serviceLabel series kv.1).toFinset := by
    rw [hvals, toFinset_foldl_insertValue]
    simp
  simp only [← hcard, hts]

theorem uniqueValues_full_count_witness :
    ({ name := "l", uniqueValues := 2, sampleValues := ["v1"] } : LabelInfo).uniqueValues =
      (labelOccurrences "service" [[("l", "v1")], [("l", "v2")]] "l").toFinset.card :=
  uniqueValues_full_count "service" [[("l", "v1")], [("l", "v2")]] 1
    { name := "l", uniqueValues := 2, sampleValues := ["v1"] }
    (by simp [GetLabelsForMetric, collectLabelValues, collectStep, excludedLabel,
              insertLabelValue, insertValue, takeSamples])

/-! ## Claim theorems: analyzer lifecycle -/

/-- Claim C3: `StartAnalysis` fails fast when either snapshot does not exist,
leaving the state unchanged and launching no job; when a `Completed` analysis
already exists for the pair, the existing analysis is returned without
creating a row or launching a job. -/
theorem startAnalysis_guards (st : AnalyzerState) (cf : Bool)
    (c1 p1 c2 p2 c3 p3 : Nat) (ex : AnalysisRow)
    (h1 : c1 ∉ st.snapshotIds)
    (h2c : c2 ∈ st.snapshotIds) (h2p : p2 ∉ st.snapshotIds)
    (h3c : c3 ∈ st.snapshotIds) (h3p : p3 ∈ st.snapshotIds)
    (h3e : getByPair st c3 p3 = some ex) (h3s : ex.status = .completed) :
    StartAnalysis st c1 p1 cf = ⟨st, .error (.notFoundCurrent c1), false⟩ ∧
    StartAnalysis st c2 p2 cf = ⟨st, .error (.notFoundPrevious p2), false⟩ ∧
    StartAnalysis st c3 p3 cf = ⟨st, .ok ex, false⟩ := by
  refine ⟨?_, ?_, ?_⟩
  · simp [StartAnalysis, h1]
  · simp [StartAnalysis, h2c, h2p]
  · simp [StartAnalysis, h3c, h3p, h3e, h3s]

theorem startAnalysis_guards_witness :
    StartAnalysis exampleAnalyzerState 3 2 false =
      ⟨exampleAnalyzerState, .error (.notFoundCurrent 3), false⟩ ∧
    StartAnalysis exampleAnalyzerState 1 4 false =
      ⟨exampleAnalyzerState, .error (.notFoundPrevious 4), false⟩ ∧
    StartAnalysis exampleAnalyzerState 1 2 false =
      ⟨exampleAnalyzerState, .ok exampleCompleted, false⟩ :=
  startAnalysis_guards exampleAnalyzerState false 3 2 1 4 1 2 exampleCompleted
    (by decide) (by decide) (by decide) (by decide) (by decide) (by rfl) (by rfl)

/-! ## Claim theorems: agentic loop -/

theorem specCalls_of_streamError {stream : Nat → Except String Response}
    {exec : String → String → Except String String} {i : Nat} {msg : String}
    (h : stream i = .error msg) :
    ∀ fuel, specCalls stream exec fuel i = [] := by
  intro fuel
  cases fuel with
  | zero => rfl
  | succ fuel => simp [specCalls, h]

theorem finalResponse_of_streamError {stream : Nat → Except String Response}
    {i : Nat} {msg : String} (h : stream i = .error msg) :
    ∀ fuel, finalResponse stream fuel i = none := by
  intro fuel
  cases fuel with
  | zero => simp [finalResponse, h]
  | succ fuel => simp [finalResponse, h]

theorem firstFunctionCall_of_partsNone {r : Response} (h : r.parts = none) :
    firstFunctionCall r = none := by
  simp [firstFunctionCall, h]

theorem specCalls_succ_ok {stream : Nat → Except String Response}
    {exec : String → String → Except String String} {i : Nat} {resp : Response}
    (fuel : Nat) (h : stream i = .ok resp) :
    specCalls stream exec (fuel + 1) i =
      (match firstFunctionCall resp with
       | none => []
       | some fc => mkToolCall exec fc :: specCalls stream exec fuel (i + 1)) := by
  simp [specCalls, h]

theorem agenticLoop_toolCalls (stream : Nat → Except String Response)
    (exec : String → String → Except String String) (now : Nat) :
    ∀ (fuel i : Nat) (resp : Response) (a : AnalysisRow),
      stream i = .ok resp →
      (agenticLoop stream exec now fuel i resp a).toolCalls =
        a.toolCalls ++ specCalls stream exec fuel i := by
  intro fuel
  induction fuel with
  | zero =>
    intro i resp a _h
    simp [agenticLoop, specCalls, finishCompleted]
  | succ fuel ih =>
    intro i resp a h
    rw [specCalls_succ_ok fuel h]
    cases hp : resp.parts with
    | none =>
      simp [agenticLoop, hp, failAnalysis, firstFunctionCall_of_partsNone hp]
    | some ps =>
      cases hfc : firstFunctionCall resp with
      | none => simp [agenticLoop, hp, hfc, finishCompleted]
      | some fc =>
        cases hs : stream (i + 1) with
        | error msg =>
          simp [agenticLoop, hp, hfc, hs, failAnalysis,
            specCalls_of_streamError hs fuel]
        | ok resp' =>
          simp only [agenticLoop, hp, hfc, hs]
          rw [ih (i + 1) resp'
            { a with toolCalls := a.toolCalls ++ [mkToolCall exec fc] } hs]
          simp

theorem specCalls_length_le (stream : Nat → Except String Response)
    (exec : String → String → Except String String) :
    ∀ (fuel i : Nat), (specCalls stream exec fuel i).length ≤ fuel := by
  intro fuel
  induction fuel with
  | zero => intro i; simp [specCalls]
  | succ fuel ih =>
    intro i
    cases hs : stream i with
    | error msg => simp [specCalls, hs]
    | ok r =>
      cases hfc : firstFunctionCall r with
      | none => simp [specCalls, hs, hfc]
      | some fc =>
        simp only [specCalls, hs, hfc, List.length_cons]
        exact Nat.succ_le_succ (ih (i + 1))

/-- Claim C4: at the end of every analysis run, the recorded tool calls are
exactly the invocations derived from the response stream, in invocation
order, and there are at most `maxAgenticIterations = 20` of them. -/
theorem toolCalls_bounded_ordered (stream : Nat → Except String Response)
    (exec : String → String → Except String String) (now : Nat)
    (a : AnalysisRow) (h : a.toolCalls = []) :
    (runAnalysis stream exec now a).toolCalls =
      specCalls stream exec maxAgenticIterations 0 ∧
    (runAnalysis stream exec now a).toolCalls.length ≤ maxAgenticIterations := by
  have key : (runAnalysis stream exec now a).toolCalls =
      specCalls stream exec maxAgenticIterations 0 := by
    cases hs : stream 0 with
    | error msg =>
      have hr : runAnalysis stream exec now a = failAnalysis a msg now := by
        simp [runAnalysis, hs]
      rw [hr]
      simp [failAnalysis, h, specCalls_of_streamError hs maxAgenticIterations]
    | ok r0 =>
      have hr : runAnalysis stream exec now a =
          agenticLoop stream exec now maxAgenticIterations 0 r0 a := by
        simp [runAnalysis, hs]
      rw [hr,
        agenticLoop_toolCalls stream exec now maxAgenticIterations 0 r0 a hs, h]
      simp
  exact ⟨key, key ▸ specCalls_length_le stream exec maxAgenticIterations 0⟩

theorem toolCalls_bounded_ordered_witness :
    (runAnalysis exampleStream exampleExec 5 exampleFreshAnalysis).toolCalls =
      specCalls exampleStream exampleExec maxAgenticIterations 0 ∧
    (runAnalysis exampleStream exampleExec 5 exampleFreshAnalysis).toolCalls.length ≤
      maxAgenticIterations :=
  toolCalls_bounded_ordered exampleStream exampleExec 5 exampleFreshAnalysis rfl

theorem agenticLoop_final (stream : Nat → Except String Response)
    (exec : String → String → Except String String) (now : Nat) (r : Response) :
    ∀ (fuel i : Nat) (resp : Response) (a : AnalysisRow),
      stream i = .ok resp →
      finalResponse stream fuel i = some r →
      ∃ a', agenticLoop stream exec now fuel i resp a = finishCompleted a' r now := by
  intro fuel
  induction fuel with
  | zero =>
    intro i resp a hs hf
    simp only [finalResponse, hs] at hf
    cases hf
    exact ⟨a, rfl⟩
  | succ fuel ih =>
    intro i resp a hs hf
    simp only [finalResponse, hs] at hf
    cases hp : resp.parts with
    | none => rw [hp] at hf; cases hf
    | some ps =>
      rw [hp] at hf
      cases hfc : firstFunctionCall resp with
      | none =>
        rw [hfc] at hf
        cases hf
        exact ⟨a, by simp [agenticLoop, hp, hfc]⟩
      | some fc =>
        rw [hfc] at hf
        cases hs' : stream (i + 1) with
        | error msg =>
          rw [finalResponse_of_streamError hs' fuel] at hf
          cases hf
        | ok resp' =>
          obtain ⟨a', ha'⟩ := ih (i + 1) resp'
            { a with toolCalls := a.toolCalls ++ [mkToolCall exec fc] } hs' hf
          exact ⟨a', by simp [agenticLoop, hp, hfc, hs', ha']⟩

/-- Claim C9: whenever the agentic loop finishes on a final response (a
response with no function-call part terminating the loop, or the iteration
cap), the analysis is marked `Completed` with a non-null `completed_at`, and
the persisted result is the concatenation of the non-thinking text parts of
that final response — or the string `"No analysis generated."` when that
concatenation is empty. -/
theorem analysis_final_text (stream : Nat → Except String Response)
    (exec : String → String → Except String String) (now : Nat)
    (a : AnalysisRow) (r : Response)
    (h : finalResponse stream maxAgenticIterations 0 = some r) :
    (runAnalysis stream exec now a).status = .completed ∧
    (runAnalysis stream exec now a).completedAt = some now ∧
    (runAnalysis stream exec now a).result =
      (if nonThoughtText r = "" then "No analysis generated." else nonThoughtText r) := by
  cases hs : stream 0 with
  | error msg =>
    rw [finalResponse_of_streamError hs maxAgenticIterations] at h
    cases h
  | ok r0 =>
    obtain ⟨a', ha'⟩ :=
      agenticLoop_final stream exec now r maxAgenticIterations 0 r0 a hs h
    have hr : runAnalysis stream exec now a =
        agenticLoop stream exec now maxAgenticIterations 0 r0 a := by
      simp [runAnalysis, hs]
    rw [hr, ha']
    simp [finishCompleted]

theorem analysis_final_text_witness :
    (runAnalysis exampleStream exampleExec 5 exampleFreshAnalysis).status = .completed ∧
    (runAnalysis exampleStream exampleExec 5 exampleFreshAnalysis).completedAt = some 5 ∧
    (runAnalysis exampleStream exampleExec 5 exampleFreshAnalysis).result =
      (if nonThoughtText exampleFinalAnswer = "" then "No analysis generated."
       else nonThoughtText exampleFinalAnswer) :=
  analysis_final_text exampleStream exampleExec 5 exampleFreshAnalysis
    exampleFinalAnswer rfl

/-! ## Claim theorems: collector -/

/-- Claim C1, counterexample to the original statement: in a run where one of
two discovered services fails at its metrics fetch, the scan still completes
successfully, `total_series` matches the single persisted child row, but
`total_services = 2` (the discovered count) while only 1 `ServiceSnapshot`
child row exists — so `total_services` is not the count of child rows. -/
theorem collect_totals_counterexample :
    (Collect exampleCollectorWorld ⟨Store.empty, 0⟩).2 =
      Except.ok ⟨1, 2, 100, 5⟩ ∧
    ((Collect exampleCollectorWorld ⟨Store.empty, 0⟩).1.store.snapshots.map
      SnapshotRow.totalServices) = [2] ∧
    ((Collect exampleCollectorWorld ⟨Store.empty, 0⟩).1.store.serviceRows.filter
      (fun row => row.snapshotId == 1)).length = 1 ∧
    (2 : Nat) ≠ 1 := by
  refine ⟨by decide, by decide, by decide, by decide⟩

/-- Claim C1 (amended): for every run of `Collect` that ends successfully,
the persisted snapshot's `total_series` equals the sum of `total_series`
across its `ServiceSnapshot` child rows — even when collection of some
discovered services fails mid-scan — while its `total_services` equals the
number of *discovered* services, which bounds (and only equals, when no
service fails) the count of child rows. -/
theorem collect_totals (w : CollectorWorld) (st' : CState) (res : CollectResult)
    (svcs : List ServiceInfo)
    (hrun : Collect w ⟨Store.empty, 0⟩ = (st', Except.ok res))
    (hdisc : w.discover = .ok svcs) :
    st'.store.snapshots =
      [⟨res.snapshotId, res.totalServices, res.totalSeries, res.durationMs⟩] ∧
    res.totalServices = svcs.length ∧
    res.totalSeries =
      ((st'.store.serviceRows.filter
        (fun row => row.snapshotId == res.snapshotId)).map
          ServiceRow.totalSeries).sum ∧
    (st'.store.serviceRows.filter
      (fun row => row.snapshotId == res.snapshotId)).length ≤ svcs.length := by
  unfold Collect at hrun
  split at hrun
  · exfalso
    have hsnd := congrArg Prod.snd hrun
    simp at hsnd
  · rename_i st1 sid h1
    obtain ⟨hnc0, hcf, hsid, hst1⟩ := repoCreateSnapshot_ok_inv h1
    split at hrun
    · exfalso
      have hsnd := congrArg Prod.snd hrun
      simp at hsnd
    · rename_i st2 svcs0 h2
      obtain ⟨hd, hst2, hnc1⟩ := clientCall_ok_inv h2
      rw [hdisc] at hd
      have hsvcs : svcs0 = svcs := by
        cases hd
        rfl
      subst hsvcs
      split at hrun
      · exfalso
        have hsnd := congrArg Prod.snd hrun
        simp at hsnd
      · rename_i st3 total h3
        split at hrun
        · exfalso
          have hsnd := congrArg Prod.snd hrun
          simp at hsnd
        · rename_i st4 u h4
          have hst' : st4 = st' := congrArg Prod.fst hrun
          have hres : res = ⟨sid, svcs0.length, total, st3.clock⟩ := by
            have hsnd := congrArg Prod.snd hrun
            simpa using hsnd.symm
          obtain ⟨hnc3, huf, hst4⟩ := repoUpdateSnapshot_ok_inv h4
          obtain ⟨hclk23, hsnap3, L, hrows, hr, hmem, hlen⟩ :=
            serviceLoop_spec w sid svcs0 st2 0 st3.clock st3 (.ok total) h3 hnc3
              (le_refl _)
          have htot : total = (L.map ServiceRow.totalSeries).sum := by
            have := hr
            simp only [Except.ok.injEq] at this
            omega
          have hsnaps2 : st3.store.snapshots = [⟨Store.empty.nextId, 0, 0, 0⟩] := by
            rw [hsnap3, hst2, hst1]
            simp [CState.tick, Store.empty]
          have hrows2 : st3.store.serviceRows = L := by
            rw [hrows, hst2, hst1]
            simp [CState.tick, Store.empty]
          have hmem1 : ∀ row ∈ L, row.snapshotId = 1 := by
            intro row hrow
            rw [hmem row hrow, hsid]
            rfl
          have hfilter : L.filter (fun row => row.snapshotId == res.snapshotId) = L := by
            refine List.filter_eq_self.mpr ?_
            intro row hrow
            simp [hmem1 row hrow, hres, hsid, Store.empty]
          rw [← hst']
          rw [hst4]
          refine ⟨?_, by rw [hres], ?_, ?_⟩
          · rw [hsnaps2, hres, hsid]
            simp [Store.empty]
          · show res.totalSeries =
              ((st3.store.serviceRows.filter
                (fun row => row.snapshotId == res.snapshotId)).map
                  ServiceRow.totalSeries).sum
            rw [hrows2, hfilter, hres]
            simpa using htot
          · show (st3.store.serviceRows.filter
                (fun row => row.snapshotId == res.snapshotId)).length ≤ svcs0.length
            rw [hrows2, hfilter]
            exact hlen

theorem collect_totals_witness :
    (Collect exampleCollectorWorld ⟨Store.empty, 0⟩).1.store.snapshots =
      [⟨(⟨1, 2, 100, 5⟩ : CollectResult).snapshotId,
        (⟨1, 2, 100, 5⟩ : CollectResult).totalServices,
        (⟨1, 2, 100, 5⟩ : CollectResult).totalSeries,
        (⟨1, 2, 100, 5⟩ : CollectResult).durationMs⟩] ∧
    (⟨1, 2, 100, 5⟩ : CollectResult).totalServices =
      [(⟨"a", 100⟩ : ServiceInfo), ⟨"b", 50⟩].length ∧
    (⟨1, 2, 100, 5⟩ : CollectResult).totalSeries =
      (((Collect exampleCollectorWorld ⟨Store.empty, 0⟩).1.store.serviceRows.filter
        (fun row => row.snapshotId == (⟨1, 2, 100, 5⟩ : CollectResult).snapshotId)).map
          ServiceRow.totalSeries).sum ∧
    ((Collect exampleCollectorWorld ⟨Store.empty, 0⟩).1.store.serviceRows.filter
      (fun row => row.snapshotId == (⟨1, 2, 100, 5⟩ : CollectResult).snapshotId)).length ≤
      [(⟨"a", 100⟩ : ServiceInfo), ⟨"b", 50⟩].length :=
  collect_totals exampleCollectorWorld (Collect exampleCollectorWorld ⟨Store.empty, 0⟩).1
    ⟨1, 2, 100, 5⟩ [⟨"a", 100⟩, ⟨"b", 50⟩] (by decide) rfl

/-- Claim C7: `Collect` fails — leaving the snapshot row (if any) with zeroed
totals — when snapshot creation fails (`w₁`), when service discovery fails
(`w₂`), or when cancellation is observed in the per-service loop (`w₃`); but
per-service failures are non-fatal: with the fatal points healthy, the scan
runs through to the final snapshot update and succeeds whatever the
per-service oracles do (`w₄`). -/
theorem collect_failure_semantics
    (w₁ w₂ w₃ w₄ : CollectorWorld) (e : String) (s : ServiceInfo)
    (rest svcs : List ServiceInfo)
    (h1c : w₁.ctx.cancelled 0 = false) (h1f : w₁.createSnapshotFails = true)
    (h2x : w₂.ctx.cancelAt = none) (h2f : w₂.createSnapshotFails = false)
    (h2d : w₂.discover = .error e)
    (h3x : w₃.ctx.cancelAt = some 2) (h3f : w₃.createSnapshotFails = false)
    (h3d : w₃.discover = .ok (s :: rest))
    (h4x : w₄.ctx.cancelAt = none) (h4f : w₄.createSnapshotFails = false)
    (h4u : w₄.updateSnapshotFails = false) (h4d : w₄.discover = .ok svcs) :
    Collect w₁ ⟨Store.empty, 0⟩ =
      (⟨Store.empty, 1⟩, .error (.repo "create snapshot")) ∧
    Collect w₂ ⟨Store.empty, 0⟩ =
      (⟨⟨[⟨1, 0, 0, 0⟩], [], [], [], 2⟩, 2⟩, .error (.backend e)) ∧
    Collect w₃ ⟨Store.empty, 0⟩ =
      (⟨⟨[⟨1, 0, 0, 0⟩], [], [], [], 2⟩, 2⟩, .error .cancelled) ∧
    ∃ r, (Collect w₄ ⟨Store.empty, 0⟩).2 = .ok r := by
  refine ⟨?_, ?_, ?_, ?_⟩
  · simp [Collect, repoCreateSnapshot, h1c, h1f, CState.tick]
  · have hnc : ∀ t, w₂.ctx.cancelled t = false := by
      intro t
      simp [Ctx.cancelled, h2x]
    simp [Collect, repoCreateSnapshot, clientCall, hnc, h2f, h2d, CState.tick,
      Store.empty]
  · have hnc0 : w₃.ctx.cancelled 0 = false := by simp [Ctx.cancelled, h3x]
    have hnc1 : w₃.ctx.cancelled 1 = false := by simp [Ctx.cancelled, h3x]
    have hc2 : w₃.ctx.cancelled 2 = true := by simp [Ctx.cancelled, h3x]
    simp [Collect, repoCreateSnapshot, clientCall, serviceLoop, hnc0, hnc1, hc2,
      h3f, h3d, CState.tick, Store.empty]
  · have hnc : ∀ t, w₄.ctx.cancelled t = false := by
      intro t
      simp [Ctx.cancelled, h4x]
    unfold Collect
    split
    · rename_i st1 e1 h1
      exfalso
      simp [repoCreateSnapshot, hnc, h4f] at h1
    · rename_i st1 sid h1
      split
      · rename_i st2 e2 h2
        exfalso
        simp [clientCall, hnc, h4d] at h2
      · rename_i st2 svcs0 h2
        split
        · rename_i st3 e3 h3
          exfalso
          obtain ⟨-, -, L, -, hr, -, -⟩ :=
            serviceLoop_spec w₄ sid svcs0 st2 0 st3.clock st3 (.error e3) h3
              (hnc st3.clock) (le_refl _)
          cases hr
        · rename_i st3 total h3
          split
          · rename_i st4 e4 h4
            exfalso
            simp [repoUpdateSnapshot, hnc, h4u] at h4
          · rename_i st4 u h4
            exact ⟨⟨sid, svcs0.length, total, st3.clock⟩, rfl⟩

theorem collect_failure_semantics_witness :
    Collect exampleWorldCreateFails ⟨Store.empty, 0⟩ =
      (⟨Store.empty, 1⟩, .error (.repo "create snapshot")) ∧
    Collect exampleWorldDiscoverFails ⟨Store.empty, 0⟩ =
      (⟨⟨[⟨1, 0, 0, 0⟩], [], [], [], 2⟩, 2⟩, .error (.backend "connection refused")) ∧
    Collect exampleWorldCancelled ⟨Store.empty, 0⟩ =
      (⟨⟨[⟨1, 0, 0, 0⟩], [], [], [], 2⟩, 2⟩, .error .cancelled) ∧
    ∃ r, (Collect exampleCollectorWorld ⟨Store.empty, 0⟩).2 = .ok r :=
  collect_failure_semantics exampleWorldCreateFails exampleWorldDiscoverFails
    exampleWorldCancelled exampleCollectorWorld "connection refused"
    ⟨"a", 100⟩ [⟨"b", 50⟩] [⟨"a", 100⟩, ⟨"b", 50⟩]
    rfl rfl rfl rfl rfl rfl rfl rfl rfl rfl rfl rfl

end MetricCost
